import Mathlib

/-!
Shallow embedding of the negotiation core of the nlistplanet marketplace
backend: the Listing/Bid data model (src/models, `listingSchema` and
`bidSchema`), the Notification model (src/models/Notification.js), the
bid/offer route handlers (src/routes/listings.js), and the username-history
guard (register and profile handlers, src/unnamed/part_006, with the
UsernameHistory model of src/models/UsernameHistory.js).

Persistence is modelled by explicit state passing: each route handler becomes
a pure function from the fetched document (`Option Listing`, the result of
`findById`) and its request parameters to a result record that carries the
HTTP status, the persisted document state after the call, and the
Notification documents that were actually created.  Mongoose enum validation
on `notificationSchema.type` is part of the embedding, since `Notification.create`
rejects a document whose `type` is not in the schema enum.  An extra Boolean
parameter `storeOk` stands for the success of the notification store write
itself, so that best-effort delivery claims can be stated.
-/

namespace NListPlanet

/-- JavaScript `String.prototype.toLowerCase` / the mongoose `lowercase: true`
schema option, as a structural character map. -/
def lowerString (s : String) : String := ⟨s.data.map Char.toLower⟩

/-! ## Data model -/

/-- `listingSchema.type` enum: `['sell', 'buy']`. -/
inductive LType
  | sell
  | buy
deriving DecidableEq, Repr

/-- `listingSchema.status` enum: `['active', 'sold', 'expired', 'cancelled']`. -/
inductive LStatus
  | active
  | sold
  | expired
  | cancelled
deriving DecidableEq, Repr

/-- `bidSchema.status` enum: `['pending', 'accepted', 'rejected', 'countered', 'expired']`. -/
inductive BidStatus
  | pending
  | accepted
  | rejected
  | countered
  | expired
deriving DecidableEq, Repr

/-- One entry of `bidSchema.counterHistory`.  The source field `by` is a Lean
keyword and is rendered `bySide` here; it holds the string written by the
counter handler (always `"seller"`). -/
structure CounterEntry where
  round : Nat
  bySide : String
  price : Nat
  quantity : Nat
  message : String
  timestamp : Nat
deriving DecidableEq, Repr

/-- `bidSchema` (embedded in a Listing, used for both bids and offers).
`id` is the subdocument `_id` used by `bidArray.id(bidId)` lookups;
`status` defaults to `pending` in the schema. -/
structure Bid where
  id : Nat
  userId : Nat
  username : String
  price : Nat
  quantity : Nat
  message : String
  status : BidStatus
  counterHistory : List CounterEntry
deriving DecidableEq, Repr

/-- `listingSchema` (models/Listing.js).  Timestamps are `Nat` milliseconds. -/
structure Listing where
  id : Nat
  userId : Nat
  username : String
  type : LType
  companyId : Nat
  companyName : String
  price : Nat
  quantity : Nat
  minLot : Nat
  description : String
  status : LStatus
  bids : List Bid
  offers : List Bid
  isBoosted : Bool
  boostExpiresAt : Option Nat
  expiresAt : Nat
deriving DecidableEq, Repr

/-- A Notification document as assembled by the route handlers.  The nested
`data` payload is flattened into `data`-prefixed fields; free-text `title` and
`message` templates are abstracted to their constant part. -/
structure Notification where
  userId : Nat
  type : String
  title : String
  message : String
  dataListingId : Option Nat
  dataBidId : Option Nat
  dataFromUser : Option String
  dataAmount : Option Nat
  dataQuantity : Option Nat
  dataCompanyName : Option String
  dataRound : Option Nat
deriving DecidableEq, Repr

/-- `notificationSchema.type` enum (src/models/Notification.js lines 9-24). -/
def notificationTypeEnum : List String :=
  ["new_bid", "new_offer", "bid_accepted", "offer_accepted",
   "bid_rejected", "offer_rejected", "counter_offer",
   "listing_expired", "boost_activated", "referral_earning"]

/-- `Notification.create`: mongoose validates `type` against the schema enum
and rejects the document otherwise; `storeOk` abstracts the success of the
underlying store write.  `none` means the create threw, which the handlers
surface through their catch-all `next(error)`. -/
def notifCreate (storeOk : Bool) (n : Notification) : Option Notification :=
  if storeOk = true ∧ n.type ∈ notificationTypeEnum then some n else none

/-! ## Bid-array helpers -/

/-- `const bidArray = listing.type === 'sell' ? listing.bids : listing.offers`. -/
def bidArrayOf (l : Listing) : List Bid :=
  match l.type with
  | .sell => l.bids
  | .buy => l.offers

/-- Write back the type-selected bid array. -/
def setBidArray (l : Listing) (bs : List Bid) : Listing :=
  match l.type with
  | .sell => { l with bids := bs }
  | .buy => { l with offers := bs }

/-- `bidArray.id(bidId)`: the subdocument with the given `_id`. -/
def findBid (bidId : Nat) (bs : List Bid) : Option Bid :=
  bs.find? (fun b => b.id = bidId)

/-- In-place mutation of the addressed subdocument: replace the first bid
with the given id by `f` of it. -/
def updateBid (bidId : Nat) (f : Bid → Bid) : List Bid → List Bid
  | [] => []
  | b :: rest => if b.id = bidId then f b :: rest else b :: updateBid bidId f rest

/-! ## Route handler results -/

/-- Outcome of one bid-operation request: HTTP status, the `success` flag of
the JSON body, the persisted Listing state after the call (`none` when the
listing was not found), and the Notification documents actually created. -/
structure BidOpResult where
  httpStatus : Nat
  success : Bool
  message : String
  listing : Option Listing
  notifs : List Notification
deriving DecidableEq, Repr

/-- Shared tail of the four negotiation handlers: the state change has
already been saved; the response then depends on whether
`Notification.create` succeeded — its failure reaches the handler's
catch-all and turns into an error response, with the saved listing kept. -/
def afterSave (okStatus : Nat) (okMessage : String) (l' : Listing)
    (created : Option Notification) : BidOpResult :=
  match created with
  | some n' => ⟨okStatus, true, okMessage, some l', [n']⟩
  | none => ⟨500, false, "Notification error", some l', []⟩

/-! ## Negotiation operations (src/routes/listings.js) -/

/-- Core state change of POST /api/listings/:id/bid: push the new Bid onto
`bids` for sell listings, onto `offers` for buy listings. -/
def placeCore (l : Listing) (bidData : Bid) : Listing :=
  match l.type with
  | .sell => { l with bids := l.bids ++ [bidData] }
  | .buy => { l with offers := l.offers ++ [bidData] }

/-- POST /api/listings/:id/bid.  `newBidId` is the subdocument id minted by
the store for the pushed Bid.  Checks: listing found, no self-bid, listing
active; then pushes a Bid (status defaults to `pending`, `counterHistory`
is set to `[]`), saves, and creates a `new_bid`/`new_offer` notification for
the listing owner — whose failure is caught only by the handler's catch-all. -/
def placeBid (listing : Option Listing) (bidderId : Nat) (bidderName : String)
    (price quantity : Nat) (message : String) (newBidId : Nat)
    (storeOk : Bool) : BidOpResult :=
  match listing with
  | none => ⟨404, false, "Listing not found", none, []⟩
  | some l =>
    if l.userId = bidderId then
      ⟨400, false, "Cannot bid on your own listing", some l, []⟩
    else if ¬ l.status = .active then
      ⟨400, false, "Listing is not active", some l, []⟩
    else
      let bidData : Bid := ⟨newBidId, bidderId, bidderName, price, quantity, message, .pending, []⟩
      let l' := placeCore l bidData
      let n : Notification :=
        ⟨l.userId, (match l.type with | .sell => "new_bid" | .buy => "new_offer"),
         (match l.type with | .sell => "New Bid Received" | .buy => "New Offer Received"),
         "placed a bid / made an offer",
         some l.id, some newBidId, some bidderName, some price, some quantity,
         some l.companyName, none⟩
      afterSave 201
        (match l.type with | .sell => "Bid placed successfully" | .buy => "Offer made successfully")
        l' (notifCreate storeOk n)

/-- Core state change of the accept handler: `bid.status = 'accepted'`. -/
def acceptCore (l : Listing) (bidId : Nat) : Listing :=
  setBidArray l (updateBid bidId (fun b => { b with status := .accepted }) (bidArrayOf l))

/-- PUT /api/listings/:listingId/bids/:bidId/accept.  Ownership is checked,
the bid is fetched from the type-appropriate array, its status set to
`accepted` and saved; then a notification of type `bid_accepted` is created
for the bidder. -/
def acceptBid (listing : Option Listing) (actorId bidId : Nat)
    (storeOk : Bool) : BidOpResult :=
  match listing with
  | none => ⟨404, false, "Listing not found", none, []⟩
  | some l =>
    if ¬ l.userId = actorId then
      ⟨403, false, "Not authorized to accept this bid", some l, []⟩
    else
      match findBid bidId (bidArrayOf l) with
      | none => ⟨404, false, "Bid not found", some l, []⟩
      | some bid =>
        let l' := acceptCore l bidId
        let n : Notification :=
          ⟨bid.userId, "bid_accepted", "Bid Accepted!", "has been accepted",
           some l.id, some bid.id, none, some bid.price, some bid.quantity,
           some l.companyName, none⟩
        afterSave 200 "Bid accepted successfully" l' (notifCreate storeOk n)

/-- Core state change of the reject handler: `bid.status = 'rejected'`. -/
def rejectCore (l : Listing) (bidId : Nat) : Listing :=
  setBidArray l (updateBid bidId (fun b => { b with status := .rejected }) (bidArrayOf l))

/-- PUT /api/listings/:listingId/bids/:bidId/reject. -/
def rejectBid (listing : Option Listing) (actorId bidId : Nat)
    (storeOk : Bool) : BidOpResult :=
  match listing with
  | none => ⟨404, false, "Listing not found", none, []⟩
  | some l =>
    if ¬ l.userId = actorId then
      ⟨403, false, "Not authorized to reject this bid", some l, []⟩
    else
      match findBid bidId (bidArrayOf l) with
      | none => ⟨404, false, "Bid not found", some l, []⟩
      | some bid =>
        let l' := rejectCore l bidId
        let n : Notification :=
          ⟨bid.userId, "bid_rejected", "Bid Rejected", "has been rejected",
           some l.id, some bid.id, none, some bid.price, some bid.quantity,
           some l.companyName, none⟩
        afterSave 200 "Bid rejected successfully" l' (notifCreate storeOk n)

/-- The counter entry pushed by the counter handler:
round `counterHistory.length + 1`, `by: 'seller'`, the countered price,
`quantity || bid.quantity`, `message || ''`, current time. -/
def counterEntryFor (bid : Bid) (price : Nat) (quantity : Option Nat)
    (message : Option String) (now : Nat) : CounterEntry :=
  ⟨bid.counterHistory.length + 1, "seller", price,
   quantity.getD bid.quantity, message.getD "", now⟩

/-- Core state change of the counter handler: push the counter entry, set
status `countered`, overwrite `price`, and overwrite `quantity` only when a
new quantity was supplied. -/
def counterCore (l : Listing) (bidId price : Nat) (quantity : Option Nat)
    (message : Option String) (now : Nat) : Listing :=
  setBidArray l (updateBid bidId (fun b =>
    { b with
      counterHistory := b.counterHistory ++ [counterEntryFor b price quantity message now],
      status := .countered,
      price := price,
      quantity := quantity.getD b.quantity }) (bidArrayOf l))

/-- PUT /api/listings/:listingId/bids/:bidId/counter.  Note the notification
type written by the handler is the string `"bid_countered"`. -/
def counterBid (listing : Option Listing) (actorId bidId price : Nat)
    (quantity : Option Nat) (message : Option String) (now : Nat)
    (storeOk : Bool) : BidOpResult :=
  match listing with
  | none => ⟨404, false, "Listing not found", none, []⟩
  | some l =>
    if ¬ l.userId = actorId then
      ⟨403, false, "Not authorized to counter this bid", some l, []⟩
    else
      match findBid bidId (bidArrayOf l) with
      | none => ⟨404, false, "Bid not found", some l, []⟩
      | some bid =>
        let round := bid.counterHistory.length + 1
        let l' := counterCore l bidId price quantity message now
        let n : Notification :=
          ⟨bid.userId, "bid_countered", "Counter Offer Received", "Counter offer",
           some l.id, some bid.id, none, some price,
           some (quantity.getD bid.quantity), some l.companyName, some round⟩
        afterSave 200 "Counter offer sent successfully" l' (notifCreate storeOk n)

/-! ## Listing lifecycle operations -/

/-- POST /api/listings together with the `listingSchema` defaults:
status `active`, empty `bids`/`offers`, `expiresAt` 30 days out,
`minLot: minLot || 1`. -/
def createListing (ownerId : Nat) (ownerName : String) (t : LType)
    (companyId : Nat) (companyName : String) (price quantity : Nat)
    (minLot : Option Nat) (description : String) (now newId : Nat) : Listing :=
  ⟨newId, ownerId, ownerName, t, companyId, companyName, price, quantity,
   minLot.getD 1, description, .active, [], [], false, none,
   now + 30 * 24 * 60 * 60 * 1000⟩

/-- Result of PUT /api/listings/:id and of the boost and admin-status
handlers: HTTP status, success flag, persisted listing. -/
structure ListingOpResult where
  httpStatus : Nat
  success : Bool
  listing : Option Listing
deriving DecidableEq, Repr

/-- PUT /api/listings/:id: owner-only edit of price/quantity/minLot,
allowed only while the stored status is `active`. -/
def updateListing (listing : Option Listing) (actorId : Nat)
    (price quantity minQuantity : Option Nat) : ListingOpResult :=
  match listing with
  | none => ⟨404, false, none⟩
  | some l =>
    if ¬ l.userId = actorId then ⟨403, false, some l⟩
    else if ¬ l.status = .active then ⟨400, false, some l⟩
    else ⟨200, true, some { l with
      price := price.getD l.price,
      quantity := quantity.getD l.quantity,
      minLot := minQuantity.getD l.minLot }⟩

/-- PUT /api/listings/:id/boost: owner-only; sets `isBoosted` and a fresh
24-hour `boostExpiresAt` window on every call. -/
def boostListing (listing : Option Listing) (actorId now : Nat) : ListingOpResult :=
  match listing with
  | none => ⟨404, false, none⟩
  | some l =>
    if ¬ l.userId = actorId then ⟨403, false, some l⟩
    else ⟨200, true, some { l with
      isBoosted := true,
      boostExpiresAt := some (now + 24 * 60 * 60 * 1000) }⟩

/-- PUT /api/admin/listings/:id/status (src/routes/admin.js): unconditional
status overwrite by an admin. -/
def adminSetListingStatus (listing : Option Listing) (s : LStatus) : ListingOpResult :=
  match listing with
  | none => ⟨404, false, none⟩
  | some l => ⟨200, true, some { l with status := s }⟩

/-- Outcome of DELETE /api/listings/:id: HTTP status, success flag, whether
the listing was removed, the remaining persisted listing, created
notifications. -/
structure DeleteResult where
  httpStatus : Nat
  success : Bool
  deleted : Bool
  listing : Option Listing
  notifs : List Notification
deriving DecidableEq, Repr

/-- The `listing_cancelled` notification the delete handler builds for one
bidder or offerer. -/
def cancelNotifFor (l : Listing) (uid : Nat) : Notification :=
  ⟨uid, "listing_cancelled", "Listing Cancelled", "has been cancelled by the seller",
   some l.id, none, none, none, none, some l.companyName, none⟩

/-- DELETE /api/listings/:id.  Owner-only; blocked when any bid or offer has
status `accepted`; otherwise `Notification.insertMany` (validated against the
schema enum) precedes `listing.deleteOne()`, so a failing insert leaves the
listing in place and surfaces as an error. -/
def deleteListing (listing : Option Listing) (actorId : Nat)
    (storeOk : Bool) : DeleteResult :=
  match listing with
  | none => ⟨404, false, false, none, []⟩
  | some l =>
    if ¬ l.userId = actorId then ⟨403, false, false, some l, []⟩
    else if (l.bids.any fun b => b.status = .accepted) ∨
            (l.offers.any fun b => b.status = .accepted) then
      ⟨400, false, false, some l, []⟩
    else
      let bidUsers := (l.bids ++ l.offers).map (fun b => b.userId)
      if bidUsers = [] then ⟨200, true, true, none, []⟩
      else
        let ns := bidUsers.map (cancelNotifFor l)
        if storeOk = true ∧ ns.all (fun n => n.type ∈ notificationTypeEnum) then
          ⟨200, true, true, none, ns⟩
        else
          ⟨500, false, false, some l, []⟩

/-! ## Marketplace query (GET /api/listings) -/

/-- Query parameters of GET /api/listings: optional type, company and
company-name search filters, the requesting user (own listings are hidden
when logged in), and pagination. -/
structure ListingQueryParams where
  type : Option LType
  companyId : Option Nat
  search : Option String
  userId : Option Nat
  page : Nat
  limit : Nat

/-- The filter document the marketplace handler builds:
`{ status: 'active' }` plus the optional type/company/search/user clauses.
The case-insensitive `$regex` company-name search is rendered as
lower-cased infix matching. -/
def matchesMarketplaceQuery (p : ListingQueryParams) (l : Listing) : Bool :=
  decide (l.status = .active)
  && (match p.type with | none => true | some t => decide (l.type = t))
  && (match p.companyId with | none => true | some c => decide (l.companyId = c))
  && (match p.search with
      | none => true
      | some s => decide ((lowerString s).toList <:+: (lowerString l.companyName).toList))
  && (match p.userId with | none => true | some uid => decide (¬ l.userId = uid))

/-- `listingSchema` pre-find middleware (models/Listing.js):
`this.where(\x7b expiresAt: \x7b $gt: new Date() \x7d \x7d)`, conjoined with
every `Listing.find` query. -/
def preFindNotExpired (now : Nat) (l : Listing) : Bool :=
  decide (now < l.expiresAt)

/-- `Listing.find(query)` over a store of listing documents: the handler's
query document conjoined with the schema's pre-find expiry filter. -/
def listingFind (now : Nat) (store : List Listing) (p : ListingQueryParams) :
    List Listing :=
  store.filter (fun l => matchesMarketplaceQuery p l && preFindNotExpired now l)

/-- Stable insertion of one element into a list sorted by `le`. -/
def insertBy (le : Listing → Listing → Bool) (a : Listing) :
    List Listing → List Listing
  | [] => [a]
  | b :: bs => if le a b then a :: b :: bs else b :: insertBy le a bs

/-- Insertion sort by `le`; stands for the store's `.sort(...)` stage, which
only reorders the filtered result set. -/
def sortListingsBy (le : Listing → Listing → Bool) : List Listing → List Listing
  | [] => []
  | a :: as => insertBy le a (sortListingsBy le as)

/-- `.sort(\x7b isBoosted: -1, [sort]: 1 \x7d)`: boosted listings first, ties
broken by the caller-specified secondary comparator `le`. -/
def boostedFirst (le : Listing → Listing → Bool) (a b : Listing) : Bool :=
  (a.isBoosted && !b.isBoosted) || (decide (a.isBoosted = b.isBoosted) && le a b)

/-- GET /api/listings: filter (query plus pre-find expiry gate), sort with
boosted listings first, then paginate with `skip ((page-1)*limit)` and
`limit`. -/
def getListings (now : Nat) (store : List Listing) (p : ListingQueryParams)
    (le : Listing → Listing → Bool) : List Listing :=
  ((sortListingsBy (boostedFirst le) (listingFind now store p)).drop
    ((p.page - 1) * p.limit)).take p.limit

/-! ## Identity integrity guard (src/unnamed/part_006 auth routes) -/

/-- The live User document, reduced to the fields the username guard
touches.  The schema lower-cases `username` on save. -/
structure User where
  id : Nat
  username : String
  email : String
  previousUsernames : List String
deriving DecidableEq, Repr

/-- One UsernameHistory document (src/models/UsernameHistory.js); the model
puts a unique index on `username` and lower-cases it. -/
structure HistoryEntry where
  username : String
  userId : Nat
  reason : String
deriving DecidableEq, Repr

/-- The two collections the username guard reads and writes. -/
structure AuthState where
  users : List User
  history : List HistoryEntry
deriving DecidableEq, Repr

/-- Outcome of an auth request: HTTP status, success flag, and the persisted
state of both collections after the call. -/
structure AuthResult where
  httpStatus : Nat
  success : Bool
  message : String
  state : AuthState
deriving DecidableEq, Repr

/-- POST /api/auth/register (src/unnamed/part_006), on the path where a
username is supplied.  The duplicate check consults only the live `users`
collection (`User.findOne` on email or lower-cased username); then
`User.create` persists the account, and `UsernameHistory.create` runs after
it — a username already present in history violates the model's unique
index, and that store error is forwarded by the handler's catch-all with the
User document already created. -/
def register (s : AuthState) (username email : String) (newUserId : Nat) :
    AuthResult :=
  let uname := lowerString username
  if s.users.any (fun u => u.email = email ∨ u.username = uname) then
    ⟨400, false, "Email already registered / Username already taken", s⟩
  else
    let s₁ : AuthState := { s with users := s.users ++ [⟨newUserId, uname, email, []⟩] }
    if s₁.history.any (fun h => h.username = uname) then
      ⟨500, false, "duplicate key error on UsernameHistory", s₁⟩
    else
      ⟨201, true, "Registration successful",
        { s₁ with history := s₁.history ++ [⟨uname, newUserId, "Initial registration"⟩] }⟩

/-- PUT /api/auth/profile (src/unnamed/part_006), restricted to its
username-change effect.  When the requested username differs from the
current one the handler rejects any name already present in UsernameHistory,
then inserts the *old* name into history (where the model's unique index can
again fail), appends the old name to the user's `previousUsernames`, and
saves the new active username (lower-cased by the schema). -/
def changeUsername (s : AuthState) (userId : Nat) (newUsername : String) :
    AuthResult :=
  match s.users.find? (fun u => u.id = userId) with
  | none => ⟨404, false, "User not found", s⟩
  | some user =>
    if newUsername = user.username then
      ⟨200, true, "Profile updated successfully", s⟩
    else
      if s.history.any (fun h => h.username = lowerString newUsername) then
        ⟨400, false,
          "This username was previously used and cannot be assigned to another user", s⟩
      else
        let oldLower := lowerString user.username
        if s.history.any (fun h => h.username = oldLower) then
          ⟨500, false, "duplicate key error on UsernameHistory", s⟩
        else
          let s₁ : AuthState :=
            { s with history := s.history ++ [⟨oldLower, userId, "User changed username"⟩] }
          ⟨200, true, "Profile updated successfully",
            { s₁ with users := s₁.users.map (fun (u : User) =>
                if u.id = userId then
                  { u with username := lowerString newUsername,
                           previousUsernames := u.previousUsernames ++ [user.username] }
                else u) }⟩

/-! ## Concrete sample documents, used by counterexamples and witnesses -/

/-- A pending bid with subdocument id 1 from user 2. -/
def pendingBid : Bid := ⟨1, 2, "bidder", 90, 50, "", .pending, []⟩

/-- The same bid already accepted. -/
def acceptedBid : Bid := ⟨1, 2, "bidder", 90, 50, "", .accepted, []⟩

/-- An active sell listing of owner 10 holding the pending bid. -/
def sellListing : Listing :=
  ⟨3, 10, "owner", .sell, 7, "Acme", 100, 50, 1, "", .active, [pendingBid], [],
   false, none, 999⟩

/-- An active sell listing of owner 10 whose only bid is already accepted. -/
def acceptedBidListing : Listing :=
  ⟨3, 10, "owner", .sell, 7, "Acme", 100, 50, 1, "", .active, [acceptedBid], [],
   false, none, 999⟩

/-- An active buy listing of owner 10 with the pending bid as an offer. -/
def buyListing : Listing :=
  ⟨4, 10, "owner", .buy, 7, "Acme", 100, 50, 1, "", .active, [], [pendingBid],
   false, none, 999⟩

/-- A listing already marked sold, still holding the pending bid. -/
def soldListing : Listing :=
  ⟨5, 10, "owner", .sell, 7, "Acme", 100, 50, 1, "", .sold, [pendingBid], [],
   false, none, 999⟩

/-- A fresh listing as created by POST /api/listings. -/
def createdListing : Listing := createListing 10 "owner" .sell 7 "Acme" 100 50 none "" 0 3

/-- `createdListing` after bidder 2 placed bid 9. -/
def placedListing : Listing :=
  placeCore createdListing ⟨9, 2, "bidder", 90, 50, "", .pending, []⟩

/-- `placedListing` after the owner countered bid 9 at price 95. -/
def counteredListing : Listing := counterCore placedListing 9 95 none none 7

/-- The countered bid as it sits inside `counteredListing`. -/
def counteredBid : Bid :=
  ⟨9, 2, "bidder", 95, 50, "", .countered, [⟨1, "seller", 95, 50, "", 7⟩]⟩

/-- Default marketplace query: no filters, first page of 20. -/
def defaultQuery : ListingQueryParams := ⟨none, none, none, none, 1, 20⟩

/-- Auth state with a live user bob (id 1) while the name alice sits retired
in UsernameHistory with no live owner. -/
def retiredAliceState : AuthState :=
  ⟨[⟨1, "bob", "a@x.com", []⟩], [⟨"alice", 1, "User changed username"⟩]⟩

/-! ## Reachability of one Listing document under the system's operations -/

/-- One mutating request that leaves the listing document in place:
any of the negotiation handlers, the owner edit, the boost, the admin status
overwrite, or a delete attempt that did not remove the document. -/
inductive Step : Listing → Listing → Prop
  | place (l l' : Listing) (bidderId : Nat) (nm : String) (price quantity : Nat)
      (msg : String) (newBidId : Nat) (storeOk : Bool)
      (h : (placeBid (some l) bidderId nm price quantity msg newBidId storeOk).listing
             = some l') : Step l l'
  | accept (l l' : Listing) (actorId bidId : Nat) (storeOk : Bool)
      (h : (acceptBid (some l) actorId bidId storeOk).listing = some l') : Step l l'
  | reject (l l' : Listing) (actorId bidId : Nat) (storeOk : Bool)
      (h : (rejectBid (some l) actorId bidId storeOk).listing = some l') : Step l l'
  | counter (l l' : Listing) (actorId bidId price : Nat) (q : Option Nat)
      (m : Option String) (now : Nat) (storeOk : Bool)
      (h : (counterBid (some l) actorId bidId price q m now storeOk).listing
             = some l') : Step l l'
  | update (l l' : Listing) (actorId : Nat) (p q mq : Option Nat)
      (h : (updateListing (some l) actorId p q mq).listing = some l') : Step l l'
  | boost (l l' : Listing) (actorId now : Nat)
      (h : (boostListing (some l) actorId now).listing = some l') : Step l l'
  | adminStatus (l l' : Listing) (s : LStatus)
      (h : (adminSetListingStatus (some l) s).listing = some l') : Step l l'
  | deleteAttempt (l l' : Listing) (actorId : Nat) (storeOk : Bool)
      (h : (deleteListing (some l) actorId storeOk).listing = some l') : Step l l'

/-- Listing documents producible by the system: created by POST /api/listings
and then mutated by any sequence of handler calls. -/
inductive Reachable : Listing → Prop
  | created (ownerId : Nat) (nm : String) (t : LType) (cid : Nat) (cnm : String)
      (price qty : Nat) (minLot : Option Nat) (descr : String) (now newId : Nat) :
      Reachable (createListing ownerId nm t cid cnm price qty minLot descr now newId)
  | step {l l' : Listing} : Reachable l → Step l l' → Reachable l'

/-- Gapless 1-based round numbering of a counter history. -/
def gapless (cs : List CounterEntry) : Prop :=
  ∀ i : Nat, ∀ hi : i < cs.length, (cs[i]).round = i + 1

/-- Every bid and offer of the listing has a gapless counter history. -/
def listingGapless (l : Listing) : Prop :=
  (∀ b ∈ l.bids, gapless b.counterHistory) ∧ (∀ b ∈ l.offers, gapless b.counterHistory)

/-- The array not selected by the listing's type stays empty. -/
def typeSeparated (l : Listing) : Prop :=
  (l.type = .sell → l.offers = []) ∧ (l.type = .buy → l.bids = [])

/-! ## Helper lemmas -/

theorem gapless_nil : gapless [] := by
  intro i hi
  simp at hi

theorem gapless_concat {cs : List CounterEntry} {e : CounterEntry}
    (h : gapless cs) (he : e.round = cs.length + 1) : gapless (cs ++ [e]) := by
  intro i hi
  rw [List.length_append, List.length_singleton] at hi
  rcases Nat.lt_or_ge i cs.length with hlt | hge
  · rw [List.getElem_append_left hlt]
    exact h i hlt
  · have hi' : i = cs.length := by omega
    subst hi'
    rw [List.getElem_append_right hge]
    simpa using he

theorem bidArrayOf_setBidArray (l : Listing) (bs : List Bid) :
    bidArrayOf (setBidArray l bs) = bs := by
  unfold bidArrayOf setBidArray
  rcases h : l.type <;> simp [h]

theorem setBidArray_type (l : Listing) (bs : List Bid) :
    (setBidArray l bs).type = l.type := by
  unfold setBidArray
  rcases h : l.type <;> simp [h]

theorem mem_updateBid {bidId : Nat} {f : Bid → Bid} {bs : List Bid} {b' : Bid}
    (h : b' ∈ updateBid bidId f bs) : b' ∈ bs ∨ ∃ b ∈ bs, b' = f b := by
  induction bs with
  | nil => simp [updateBid] at h
  | cons a rest ih =>
    rw [updateBid] at h
    by_cases ha : a.id = bidId
    · rw [if_pos ha] at h
      rcases List.mem_cons.mp h with h | h
      · exact Or.inr ⟨a, List.mem_cons_self a rest, h⟩
      · exact Or.inl (List.mem_cons_of_mem _ h)
    · rw [if_neg ha] at h
      rcases List.mem_cons.mp h with h | h
      · exact Or.inl (h ▸ List.mem_cons_self a rest)
      · rcases ih h with h' | ⟨b, hb, hb'⟩
        · exact Or.inl (List.mem_cons_of_mem _ h')
        · exact Or.inr ⟨b, List.mem_cons_of_mem _ hb, hb'⟩

theorem findBid_updateBid {bs : List Bid} {bidId : Nat} {f : Bid → Bid} {b : Bid}
    (hid : ∀ x, (f x).id = x.id) (h : findBid bidId bs = some b) :
    findBid bidId (updateBid bidId f bs) = some (f b) := by
  induction bs with
  | nil => simp [findBid] at h
  | cons a rest ih =>
    by_cases ha : a.id = bidId
    · rw [findBid, List.find?_cons_of_pos _ (by simpa using ha)] at h
      rw [updateBid, if_pos ha, findBid,
        List.find?_cons_of_pos _ (by simp [hid a, ha])]
      simp only [Option.some.injEq] at h ⊢
      exact congrArg f h
    · rw [findBid, List.find?_cons_of_neg _ (by simpa using ha)] at h
      rw [updateBid, if_neg ha, findBid, List.find?_cons_of_neg _ (by simpa using ha)]
      exact ih h

theorem findBid_append_left {bs ts : List Bid} {bidId : Nat} {b : Bid}
    (h : findBid bidId bs = some b) : findBid bidId (bs ++ ts) = some b := by
  induction bs with
  | nil => simp [findBid] at h
  | cons a rest ih =>
    by_cases ha : a.id = bidId
    · rw [findBid, List.find?_cons_of_pos _ (by simpa using ha)] at h
      rw [List.cons_append, findBid, List.find?_cons_of_pos _ (by simpa using ha)]
      exact h
    · rw [findBid, List.find?_cons_of_neg _ (by simpa using ha)] at h
      rw [List.cons_append, findBid, List.find?_cons_of_neg _ (by simpa using ha)]
      exact ih h

/-! ## Persisted-listing case analyses, one per handler -/

theorem afterSave_listing (c : Nat) (m : String) (l' : Listing)
    (r : Option Notification) : (afterSave c m l' r).listing = some l' := by
  cases r <;> rfl

theorem placeBid_listing_cases (l : Listing) (bidderId : Nat) (nm : String)
    (price quantity : Nat) (msg : String) (newBidId : Nat) (ok : Bool) :
    (placeBid (some l) bidderId nm price quantity msg newBidId ok).listing = some l ∨
    (placeBid (some l) bidderId nm price quantity msg newBidId ok).listing
      = some (placeCore l ⟨newBidId, bidderId, nm, price, quantity, msg, .pending, []⟩) := by
  by_cases h1 : l.userId = bidderId
  · exact Or.inl (by simp [placeBid, h1])
  · by_cases h2 : l.status = LStatus.active
    · exact Or.inr (by simp [placeBid, h1, h2, afterSave_listing])
    · exact Or.inl (by simp [placeBid, h1, h2])

theorem acceptBid_listing_cases (l : Listing) (actorId bidId : Nat) (ok : Bool) :
    (acceptBid (some l) actorId bidId ok).listing = some l ∨
    (acceptBid (some l) actorId bidId ok).listing = some (acceptCore l bidId) := by
  by_cases h1 : l.userId = actorId
  · rcases hf : findBid bidId (bidArrayOf l) with _ | bid
    · exact Or.inl (by simp [acceptBid, h1, hf])
    · exact Or.inr (by simp [acceptBid, h1, hf, afterSave_listing])
  · exact Or.inl (by simp [acceptBid, h1])

theorem rejectBid_listing_cases (l : Listing) (actorId bidId : Nat) (ok : Bool) :
    (rejectBid (some l) actorId bidId ok).listing = some l ∨
    (rejectBid (some l) actorId bidId ok).listing = some (rejectCore l bidId) := by
  by_cases h1 : l.userId = actorId
  · rcases hf : findBid bidId (bidArrayOf l) with _ | bid
    · exact Or.inl (by simp [rejectBid, h1, hf])
    · exact Or.inr (by simp [rejectBid, h1, hf, afterSave_listing])
  · exact Or.inl (by simp [rejectBid, h1])

theorem counterBid_listing_cases (l : Listing) (actorId bidId price : Nat)
    (q : Option Nat) (m : Option String) (now : Nat) (ok : Bool) :
    (counterBid (some l) actorId bidId price q m now ok).listing = some l ∨
    (counterBid (some l) actorId bidId price q m now ok).listing
      = some (counterCore l bidId price q m now) := by
  by_cases h1 : l.userId = actorId
  · rcases hf : findBid bidId (bidArrayOf l) with _ | bid
    · exact Or.inl (by simp [counterBid, h1, hf])
    · exact Or.inr (by simp [counterBid, h1, hf, afterSave_listing])
  · exact Or.inl (by simp [counterBid, h1])

theorem updateListing_listing_cases (l : Listing) (actorId : Nat)
    (p q mq : Option Nat) :
    (updateListing (some l) actorId p q mq).listing = some l ∨
    (updateListing (some l) actorId p q mq).listing = some { l with
      price := p.getD l.price, quantity := q.getD l.quantity,
      minLot := mq.getD l.minLot } := by
  unfold updateListing
  dsimp only
  split_ifs <;> simp

theorem boostListing_listing_cases (l : Listing) (actorId now : Nat) :
    (boostListing (some l) actorId now).listing = some l ∨
    (boostListing (some l) actorId now).listing = some { l with
      isBoosted := true, boostExpiresAt := some (now + 24 * 60 * 60 * 1000) } := by
  unfold boostListing
  dsimp only
  split_ifs <;> simp

theorem adminSetListingStatus_listing_cases (l : Listing) (s : LStatus) :
    (adminSetListingStatus (some l) s).listing = some { l with status := s } := by
  rfl

theorem deleteListing_listing_cases (l : Listing) (actorId : Nat) (ok : Bool) :
    (deleteListing (some l) actorId ok).listing = some l ∨
    (deleteListing (some l) actorId ok).listing = none := by
  unfold deleteListing
  dsimp only
  split_ifs <;> simp

/-! ## Invariant preservation -/

theorem some_listing_inj {x : Option Listing} {a b : Listing}
    (h1 : x = some a) (h2 : x = some b) : a = b := by
  rw [h1] at h2
  exact Option.some.inj h2

theorem placeCore_eq_setBidArray (l : Listing) (b : Bid) :
    placeCore l b = setBidArray l (bidArrayOf l ++ [b]) := by
  unfold placeCore setBidArray bidArrayOf
  rcases ht : l.type <;> simp [ht]

theorem typeSeparated_setBidArray {l : Listing} (bs : List Bid)
    (h : typeSeparated l) : typeSeparated (setBidArray l bs) := by
  obtain ⟨hs, hb⟩ := h
  rcases ht : l.type with _ | _
  · have he : setBidArray l bs = { l with bids := bs } := by simp [setBidArray, ht]
    rw [he]
    exact ⟨fun _ => hs ht, fun hbuy => by simp [ht] at hbuy⟩
  · have he : setBidArray l bs = { l with offers := bs } := by simp [setBidArray, ht]
    rw [he]
    exact ⟨fun hsell => by simp [ht] at hsell, fun _ => hb ht⟩

theorem listingGapless_bidArrayOf {l : Listing} (h : listingGapless l) :
    ∀ b ∈ bidArrayOf l, gapless b.counterHistory := by
  intro b hb
  rcases ht : l.type with _ | _ <;> rw [bidArrayOf, ht] at hb
  · exact h.1 b hb
  · exact h.2 b hb

theorem listingGapless_setBidArray {l : Listing} {bs : List Bid}
    (h : listingGapless l) (hbs : ∀ b ∈ bs, gapless b.counterHistory) :
    listingGapless (setBidArray l bs) := by
  rcases ht : l.type with _ | _
  · have he : setBidArray l bs = { l with bids := bs } := by simp [setBidArray, ht]
    rw [he]
    exact ⟨hbs, h.2⟩
  · have he : setBidArray l bs = { l with offers := bs } := by simp [setBidArray, ht]
    rw [he]
    exact ⟨h.1, hbs⟩

theorem listingGapless_updateBid {l : Listing} {bidId : Nat} {f : Bid → Bid}
    (hf : ∀ b, gapless b.counterHistory → gapless ((f b).counterHistory))
    (h : listingGapless l) :
    listingGapless (setBidArray l (updateBid bidId f (bidArrayOf l))) := by
  refine listingGapless_setBidArray h ?_
  intro b' hb'
  rcases mem_updateBid hb' with hmem | ⟨b, hb, rfl⟩
  · exact listingGapless_bidArrayOf h b' hmem
  · exact hf b (listingGapless_bidArrayOf h b hb)

theorem step_listingGapless {l l' : Listing} (st : Step l l')
    (h : listingGapless l) : listingGapless l' := by
  cases st with
  | place bidderId nm price quantity msg newBidId ok hL =>
    rcases placeBid_listing_cases l bidderId nm price quantity msg newBidId ok with hc | hc
    · rw [some_listing_inj hL hc]
      exact h
    · rw [some_listing_inj hL hc, placeCore_eq_setBidArray]
      refine listingGapless_setBidArray h ?_
      intro b hb
      rcases List.mem_append.mp hb with hb | hb
      · exact listingGapless_bidArrayOf h b hb
      · rw [List.mem_singleton.mp hb]
        exact gapless_nil
  | accept actorId bidId ok hL =>
    rcases acceptBid_listing_cases l actorId bidId ok with hc | hc
    · rw [some_listing_inj hL hc]
      exact h
    · rw [some_listing_inj hL hc]
      exact listingGapless_updateBid (fun b hb => hb) h
  | reject actorId bidId ok hL =>
    rcases rejectBid_listing_cases l actorId bidId ok with hc | hc
    · rw [some_listing_inj hL hc]
      exact h
    · rw [some_listing_inj hL hc]
      exact listingGapless_updateBid (fun b hb => hb) h
  | counter actorId bidId price q m now ok hL =>
    rcases counterBid_listing_cases l actorId bidId price q m now ok with hc | hc
    · rw [some_listing_inj hL hc]
      exact h
    · rw [some_listing_inj hL hc]
      exact listingGapless_updateBid
        (fun b hb => gapless_concat hb rfl) h
  | update actorId p q mq hL =>
    rcases updateListing_listing_cases l actorId p q mq with hc | hc
    · rw [some_listing_inj hL hc]
      exact h
    · rw [some_listing_inj hL hc]
      exact h
  | boost actorId now hL =>
    rcases boostListing_listing_cases l actorId now with hc | hc
    · rw [some_listing_inj hL hc]
      exact h
    · rw [some_listing_inj hL hc]
      exact h
  | adminStatus s hL =>
    rw [some_listing_inj hL (adminSetListingStatus_listing_cases l s)]
    exact h
  | deleteAttempt actorId ok hL =>
    rcases deleteListing_listing_cases l actorId ok with hc | hc
    · rw [some_listing_inj hL hc]
      exact h
    · rw [hc] at hL
      exact absurd hL (by simp)

theorem step_typeSeparated {l l' : Listing} (st : Step l l')
    (h : typeSeparated l) : typeSeparated l' := by
  cases st with
  | place bidderId nm price quantity msg newBidId ok hL =>
    rcases placeBid_listing_cases l bidderId nm price quantity msg newBidId ok with hc | hc
    · rw [some_listing_inj hL hc]
      exact h
    · rw [some_listing_inj hL hc, placeCore_eq_setBidArray]
      exact typeSeparated_setBidArray _ h
  | accept actorId bidId ok hL =>
    rcases acceptBid_listing_cases l actorId bidId ok with hc | hc
    · rw [some_listing_inj hL hc]
      exact h
    · rw [some_listing_inj hL hc]
      exact typeSeparated_setBidArray _ h
  | reject actorId bidId ok hL =>
    rcases rejectBid_listing_cases l actorId bidId ok with hc | hc
    · rw [some_listing_inj hL hc]
      exact h
    · rw [some_listing_inj hL hc]
      exact typeSeparated_setBidArray _ h
  | counter actorId bidId price q m now ok hL =>
    rcases counterBid_listing_cases l actorId bidId price q m now ok with hc | hc
    · rw [some_listing_inj hL hc]
      exact h
    · rw [some_listing_inj hL hc]
      exact typeSeparated_setBidArray _ h
  | update actorId p q mq hL =>
    rcases updateListing_listing_cases l actorId p q mq with hc | hc
    · rw [some_listing_inj hL hc]
      exact h
    · rw [some_listing_inj hL hc]
      exact ⟨h.1, h.2⟩
  | boost actorId now hL =>
    rcases boostListing_listing_cases l actorId now with hc | hc
    · rw [some_listing_inj hL hc]
      exact h
    · rw [some_listing_inj hL hc]
      exact ⟨h.1, h.2⟩
  | adminStatus s hL =>
    rw [some_listing_inj hL (adminSetListingStatus_listing_cases l s)]
    exact ⟨h.1, h.2⟩
  | deleteAttempt actorId ok hL =>
    rcases deleteListing_listing_cases l actorId ok with hc | hc
    · rw [some_listing_inj hL hc]
      exact h
    · rw [hc] at hL
      exact absurd hL (by simp)

theorem reachable_listingGapless {l : Listing} (h : Reachable l) :
    listingGapless l := by
  induction h with
  | created ownerId nm t cid cnm price qty minLot descr now newId =>
    constructor <;> intro b hb <;> simp [createListing] at hb
  | step _ st ih => exact step_listingGapless st ih

theorem reachable_typeSeparated {l : Listing} (h : Reachable l) :
    typeSeparated l := by
  induction h with
  | created ownerId nm t cid cnm price qty minLot descr now newId =>
    constructor <;> intro _ <;> simp [createListing]
  | step _ st ih => exact step_typeSeparated st ih

/-! ## Query-pipeline membership lemmas -/

theorem mem_insertBy {le : Listing → Listing → Bool} {a b : Listing}
    {xs : List Listing} (h : b ∈ insertBy le a xs) : b = a ∨ b ∈ xs := by
  induction xs with
  | nil =>
    rw [insertBy] at h
    exact Or.inl (List.mem_singleton.mp h)
  | cons x rest ih =>
    rw [insertBy] at h
    by_cases hle : le a x
    · rw [if_pos hle] at h
      rcases List.mem_cons.mp h with h | h
      · exact Or.inl h
      · exact Or.inr h
    · rw [if_neg hle] at h
      rcases List.mem_cons.mp h with h | h
      · exact Or.inr (h ▸ List.mem_cons_self x rest)
      · rcases ih h with h | h
        · exact Or.inl h
        · exact Or.inr (List.mem_cons_of_mem _ h)

theorem mem_sortListingsBy {le : Listing → Listing → Bool} {b : Listing}
    {xs : List Listing} (h : b ∈ sortListingsBy le xs) : b ∈ xs := by
  induction xs with
  | nil =>
    rw [sortListingsBy] at h
    exact absurd h (List.not_mem_nil b)
  | cons x rest ih =>
    rw [sortListingsBy] at h
    rcases mem_insertBy h with h | h
    · exact h ▸ List.mem_cons_self x rest
    · exact List.mem_cons_of_mem _ (ih h)

/-! ## Claim theorems -/

/-- C3: the public marketplace listing query (GET /api/listings) never returns
a Listing whose `expiresAt` is at or before the current time, for any store
contents, query parameters and secondary sort — the schema's pre-find
middleware conjoins `expiresAt > now` onto the handler's
`\x7b status: 'active', ... \x7d` filter before sorting and pagination. -/
theorem marketplace_query_hides_expired_listings (now : Nat)
    (store : List Listing) (p : ListingQueryParams)
    (le : Listing → Listing → Bool) (l : Listing)
    (h : l ∈ getListings now store p le) : now < l.expiresAt := by
  unfold getListings at h
  have h1 := List.mem_of_mem_take h
  have h2 := List.mem_of_mem_drop h1
  have h3 := mem_sortListingsBy h2
  rw [listingFind] at h3
  have h4 := (List.mem_filter.mp h3).2
  simp only [Bool.and_eq_true, preFindNotExpired, decide_eq_true_eq] at h4
  exact h4.2

/-- Witness for C3 at a concrete store: the sample sell listing, returned by
the marketplace query at time 5, has not yet expired. -/
theorem marketplace_query_hides_expired_listings_witness :
    5 < sellListing.expiresAt :=
  marketplace_query_hides_expired_listings 5 [sellListing] defaultQuery
    (fun _ _ => true) sellListing (by decide)

/-- C9: for every Listing reachable through the system's operations, `bids`
and `offers` are never both non-empty: a sell listing only ever accumulates
entries in `bids`, a buy listing only in `offers`. -/
theorem reachable_bids_offers_not_both_nonempty (l : Listing)
    (h : Reachable l) : l.bids = [] ∨ l.offers = [] := by
  have ht := reachable_typeSeparated h
  rcases hty : l.type with _ | _
  · exact Or.inr (ht.1 hty)
  · exact Or.inl (ht.2 hty)

/-- Witness for C9 on a concrete two-step trace: create a sell listing, then
place a bid on it. -/
theorem reachable_bids_offers_not_both_nonempty_witness :
    placedListing.bids = [] ∨ placedListing.offers = [] :=
  reachable_bids_offers_not_both_nonempty placedListing
    (Reachable.step
      (Reachable.created 10 "owner" .sell 7 "Acme" 100 50 none "" 0 3)
      (Step.place createdListing placedListing 2 "bidder" 90 50 "" 9 true
        (by decide)))

/-- C6: DELETE /api/listings/:id by the owner of a listing holding an
accepted bid or offer responds 400 Conflict and leaves everything untouched:
the listing is kept as is, nothing is deleted, and no `listing_cancelled`
notifications are created. -/
theorem delete_with_accepted_bid_conflicts (l : Listing) (actorId : Nat)
    (ok : Bool) (hown : l.userId = actorId)
    (hacc : (∃ b ∈ l.bids, b.status = BidStatus.accepted) ∨
            (∃ b ∈ l.offers, b.status = BidStatus.accepted)) :
    deleteListing (some l) actorId ok = ⟨400, false, false, some l, []⟩ := by
  have hc : (l.bids.any fun b => b.status = BidStatus.accepted) ∨
      (l.offers.any fun b => b.status = BidStatus.accepted) := by
    rcases hacc with ⟨b, hb, hs⟩ | ⟨b, hb, hs⟩
    · exact Or.inl (List.any_eq_true.mpr ⟨b, hb, by simp [hs]⟩)
    · exact Or.inr (List.any_eq_true.mpr ⟨b, hb, by simp [hs]⟩)
  unfold deleteListing
  dsimp only
  rw [if_neg (by simp [hown]), if_pos hc]

/-- Witness for C6 at the concrete listing with an accepted bid. -/
theorem delete_with_accepted_bid_conflicts_witness :
    deleteListing (some acceptedBidListing) 10 true
      = ⟨400, false, false, some acceptedBidListing, []⟩ :=
  delete_with_accepted_bid_conflicts acceptedBidListing 10 true (by decide)
    (Or.inl ⟨acceptedBid, by decide, by decide⟩)

theorem findBid_updateBid_result {bs : List Bid} {bidId0 bidId : Nat}
    {f : Bid → Bid} {b b' : Bid} (hb : findBid bidId bs = some b)
    (hb' : findBid bidId (updateBid bidId0 f bs) = some b')
    (hid : ∀ x, (f x).id = x.id) :
    b' = b ∨ b' = f b := by
  induction bs generalizing b b' with
  | nil => simp [findBid] at hb
  | cons a rest ih =>
    by_cases ha0 : a.id = bidId0
    · rw [updateBid, if_pos ha0] at hb'
      by_cases hab : a.id = bidId
      · rw [findBid, List.find?_cons_of_pos _ (by simpa using hab)] at hb
        rw [findBid, List.find?_cons_of_pos _ (by simp [hid a, hab])] at hb'
        exact Or.inr ((Option.some.inj hb').symm.trans
          (congrArg f (Option.some.inj hb)))
      · rw [findBid, List.find?_cons_of_neg _ (by simpa using hab)] at hb
        rw [findBid, List.find?_cons_of_neg _ (by simp [hid a, hab])] at hb'
        rw [hb] at hb'
        exact Or.inl (Option.some.inj hb').symm
    · rw [updateBid, if_neg ha0] at hb'
      by_cases hab : a.id = bidId
      · rw [findBid, List.find?_cons_of_pos _ (by simpa using hab)] at hb
        rw [findBid, List.find?_cons_of_pos _ (by simpa using hab)] at hb'
        exact Or.inl ((Option.some.inj hb').symm.trans (Option.some.inj hb))
      · rw [findBid, List.find?_cons_of_neg _ (by simpa using hab)] at hb
        rw [findBid, List.find?_cons_of_neg _ (by simpa using hab)] at hb'
        exact ih hb hb'

/-- C2 counterexample: the reject handler does not guard terminal statuses —
addressed to the already-accepted bid of `acceptedBidListing` it responds
success and overwrites the status: accepted becomes rejected. -/
theorem reject_overwrites_accepted_bid :
    findBid 1 (bidArrayOf acceptedBidListing) = some acceptedBid ∧
    acceptedBid.status = BidStatus.accepted ∧
    (rejectBid (some acceptedBidListing) 10 1 true).success = true ∧
    ((rejectBid (some acceptedBidListing) 10 1 true).listing.bind
      (fun l => (findBid 1 (bidArrayOf l)).map Bid.status))
      = some BidStatus.rejected := by
  decide

/-- C2 amended: the handlers do not enforce accepted/rejected as terminal —
a later Accept, Reject or Counter overwrites them.  What does hold is the
absence of any transition back to pending: after any single operation step, a
bid that existed before is either unchanged or carries a status other than
pending. -/
theorem step_never_resets_bid_to_pending (l l' : Listing) (st : Step l l')
    (bidId : Nat) (b b' : Bid)
    (hb : findBid bidId (bidArrayOf l) = some b)
    (hb' : findBid bidId (bidArrayOf l') = some b') :
    b' = b ∨ ¬ b'.status = BidStatus.pending := by
  cases st with
  | place bidderId nm price quantity msg newBidId ok hL =>
    rcases placeBid_listing_cases l bidderId nm price quantity msg newBidId ok with hc | hc
    · rw [some_listing_inj hL hc, hb] at hb'
      exact Or.inl (Option.some.inj hb').symm
    · rw [some_listing_inj hL hc, placeCore_eq_setBidArray,
        bidArrayOf_setBidArray, findBid_append_left hb] at hb'
      exact Or.inl (Option.some.inj hb').symm
  | accept actorId bidId0 ok hL =>
    rcases acceptBid_listing_cases l actorId bidId0 ok with hc | hc
    · rw [some_listing_inj hL hc, hb] at hb'
      exact Or.inl (Option.some.inj hb').symm
    · rw [some_listing_inj hL hc, acceptCore, bidArrayOf_setBidArray] at hb'
      rcases findBid_updateBid_result hb hb' (fun x => rfl) with h1 | h1
      · exact Or.inl h1
      · refine Or.inr ?_
        rw [h1]
        simp
  | reject actorId bidId0 ok hL =>
    rcases rejectBid_listing_cases l actorId bidId0 ok with hc | hc
    · rw [some_listing_inj hL hc, hb] at hb'
      exact Or.inl (Option.some.inj hb').symm
    · rw [some_listing_inj hL hc, rejectCore, bidArrayOf_setBidArray] at hb'
      rcases findBid_updateBid_result hb hb' (fun x => rfl) with h1 | h1
      · exact Or.inl h1
      · refine Or.inr ?_
        rw [h1]
        simp
  | counter actorId bidId0 price q m now ok hL =>
    rcases counterBid_listing_cases l actorId bidId0 price q m now ok with hc | hc
    · rw [some_listing_inj hL hc, hb] at hb'
      exact Or.inl (Option.some.inj hb').symm
    · rw [some_listing_inj hL hc, counterCore, bidArrayOf_setBidArray] at hb'
      rcases findBid_updateBid_result hb hb' (fun x => rfl) with h1 | h1
      · exact Or.inl h1
      · refine Or.inr ?_
        rw [h1]
        simp
  | update actorId p q mq hL =>
    rcases updateListing_listing_cases l actorId p q mq with hc | hc
    · rw [some_listing_inj hL hc, hb] at hb'
      exact Or.inl (Option.some.inj hb').symm
    · rw [some_listing_inj hL hc] at hb'
      have hb2 : findBid bidId (bidArrayOf l) = some b' := hb'
      rw [hb] at hb2
      exact Or.inl (Option.some.inj hb2).symm
  | boost actorId now hL =>
    rcases boostListing_listing_cases l actorId now with hc | hc
    · rw [some_listing_inj hL hc, hb] at hb'
      exact Or.inl (Option.some.inj hb').symm
    · rw [some_listing_inj hL hc] at hb'
      have hb2 : findBid bidId (bidArrayOf l) = some b' := hb'
      rw [hb] at hb2
      exact Or.inl (Option.some.inj hb2).symm
  | adminStatus s hL =>
    rw [some_listing_inj hL (adminSetListingStatus_listing_cases l s)] at hb'
    have hb2 : findBid bidId (bidArrayOf l) = some b' := hb'
    rw [hb] at hb2
    exact Or.inl (Option.some.inj hb2).symm
  | deleteAttempt actorId ok hL =>
    rcases deleteListing_listing_cases l actorId ok with hc | hc
    · rw [some_listing_inj hL hc, hb] at hb'
      exact Or.inl (Option.some.inj hb').symm
    · rw [hc] at hL
      exact absurd hL (by simp)

/-- Witness for C2 amended at a concrete accept step on the sample listing. -/
theorem step_never_resets_bid_to_pending_witness :
    acceptedBid = pendingBid ∨ ¬ acceptedBid.status = BidStatus.pending :=
  step_never_resets_bid_to_pending sellListing (acceptCore sellListing 1)
    (Step.accept sellListing (acceptCore sellListing 1) 10 1 true (by decide))
    1 pendingBid acceptedBid (by decide) (by decide)

/-- C7: CounterBid by the listing owner on an existing Bid appends exactly
one CounterEntry with round = previous counterHistory length + 1 and
by = "seller", sets the Bid's status to countered, its price to the countered
price and its quantity only when one was supplied; and in every reachable
Listing, every Bid's counterHistory satisfies counterHistory[i].round = i + 1
at every index. -/
theorem counter_round_increment_and_gapless_history :
    (∀ (l : Listing) (bidId price : Nat) (q : Option Nat) (m : Option String)
       (now : Nat) (ok : Bool) (b : Bid),
       findBid bidId (bidArrayOf l) = some b →
       (counterBid (some l) l.userId bidId price q m now ok).listing
           = some (counterCore l bidId price q m now) ∧
       findBid bidId (bidArrayOf (counterCore l bidId price q m now)) = some
         { b with
           counterHistory := b.counterHistory ++
             [⟨b.counterHistory.length + 1, "seller", price, q.getD b.quantity,
               m.getD "", now⟩],
           status := BidStatus.countered, price := price,
           quantity := q.getD b.quantity }) ∧
    (∀ l : Listing, Reachable l → ∀ b : Bid, b ∈ l.bids ∨ b ∈ l.offers →
       ∀ i : Nat, ∀ hi : i < b.counterHistory.length,
         (b.counterHistory.get ⟨i, hi⟩).round = i + 1) := by
  constructor
  · intro l bidId price q m now ok b hb
    constructor
    · simp [counterBid, hb, afterSave_listing]
    · rw [counterCore, bidArrayOf_setBidArray]
      exact findBid_updateBid (fun x => rfl) hb
  · intro l hr b hb i hi
    have hg := reachable_listingGapless hr
    rcases hb with hb | hb
    · exact hg.1 b hb i hi
    · exact hg.2 b hb i hi

/-- Witness for C7: a concrete counter on the sample listing, and round 1 of
the counter history of the bid countered along a concrete
create-place-counter trace. -/
theorem counter_round_increment_and_gapless_history_witness :
    ((counterBid (some sellListing) 10 1 95 none none 7 true).listing
        = some (counterCore sellListing 1 95 none none 7) ∧
      findBid 1 (bidArrayOf (counterCore sellListing 1 95 none none 7))
        = some ⟨1, 2, "bidder", 95, 50, "", .countered,
            [⟨1, "seller", 95, 50, "", 7⟩]⟩) ∧
    (counteredBid.counterHistory.get ⟨0, by decide⟩).round = 0 + 1 :=
  ⟨counter_round_increment_and_gapless_history.1 sellListing 1 95 none none 7
      true pendingBid (by decide),
   counter_round_increment_and_gapless_history.2 counteredListing
      (Reachable.step
        (Reachable.step
          (Reachable.created 10 "owner" .sell 7 "Acme" 100 50 none "" 0 3)
          (Step.place createdListing placedListing 2 "bidder" 90 50 "" 9 true
            (by decide)))
        (Step.counter placedListing counteredListing 10 9 95 none none 7 true
          (by decide)))
      counteredBid (Or.inl (by decide)) 0 (by decide)⟩

/-- C10 counterexample: the owner counters an existing bid (listing and bid
present, actor is the owner), yet the request does not succeed: the handler
hands Notification.create the type "bid_countered", the schema enum rejects
it, and the error propagates as a 500 response. -/
theorem counter_by_owner_on_existing_bid_fails :
    (counterBid (some soldListing) 10 1 95 none none 7 true).httpStatus = 500 ∧
    (counterBid (some soldListing) 10 1 95 none none 7 true).success = false := by
  decide

/-- C10 amended: AcceptBid, RejectBid and CounterBid never read the stored
listing status — for a Listing of any status, with the owner as actor and the
bid present, the state transition is applied and persisted.  Accept and
Reject respond 200 success; Counter also persists its transition but its
response is a 500 error because its notification type is rejected by the
Notification schema.  Only PlaceBid checks listing.status. -/
theorem negotiation_ops_ignore_listing_status (l : Listing)
    (bidId price now : Nat) (q : Option Nat) (m : Option String) (b : Bid)
    (hb : findBid bidId (bidArrayOf l) = some b) :
    ((acceptBid (some l) l.userId bidId true).httpStatus = 200 ∧
     (acceptBid (some l) l.userId bidId true).success = true ∧
     (acceptBid (some l) l.userId bidId true).listing
       = some (acceptCore l bidId)) ∧
    ((rejectBid (some l) l.userId bidId true).httpStatus = 200 ∧
     (rejectBid (some l) l.userId bidId true).success = true ∧
     (rejectBid (some l) l.userId bidId true).listing
       = some (rejectCore l bidId)) ∧
    ((counterBid (some l) l.userId bidId price q m now true).httpStatus = 500 ∧
     (counterBid (some l) l.userId bidId price q m now true).success = false ∧
     (counterBid (some l) l.userId bidId price q m now true).listing
       = some (counterCore l bidId price q m now)) := by
  have hacc : "bid_accepted" ∈ notificationTypeEnum := by decide
  have hrej : "bid_rejected" ∈ notificationTypeEnum := by decide
  have hcnt : ¬ "bid_countered" ∈ notificationTypeEnum := by decide
  refine ⟨?_, ?_, ?_⟩
  · simp [acceptBid, hb, notifCreate, afterSave, hacc]
  · simp [rejectBid, hb, notifCreate, afterSave, hrej]
  · simp [counterBid, hb, notifCreate, afterSave, hcnt]

/-- Witness for C10 amended at the concrete sold listing holding a pending
bid. -/
theorem negotiation_ops_ignore_listing_status_witness :
    ((acceptBid (some soldListing) 10 1 true).httpStatus = 200 ∧
     (acceptBid (some soldListing) 10 1 true).success = true ∧
     (acceptBid (some soldListing) 10 1 true).listing
       = some (acceptCore soldListing 1)) ∧
    ((rejectBid (some soldListing) 10 1 true).httpStatus = 200 ∧
     (rejectBid (some soldListing) 10 1 true).success = true ∧
     (rejectBid (some soldListing) 10 1 true).listing
       = some (rejectCore soldListing 1)) ∧
    ((counterBid (some soldListing) 10 1 95 none none 7 true).httpStatus = 500 ∧
     (counterBid (some soldListing) 10 1 95 none none 7 true).success = false ∧
     (counterBid (some soldListing) 10 1 95 none none 7 true).listing
       = some (counterCore soldListing 1 95 none none 7)) :=
  negotiation_ops_ignore_listing_status soldListing 1 95 7 none none pendingBid
    (by decide)

/-- C5 counterexample: the bid acceptance is saved, then the Notification
store write fails — the already-applied transition stays (no rollback), but
the failure IS propagated to the caller as a 500 error response instead of
being swallowed. -/
theorem notification_failure_propagates_to_caller :
    (acceptBid (some sellListing) 10 1 false).httpStatus = 500 ∧
    (acceptBid (some sellListing) 10 1 false).success = false ∧
    ((acceptBid (some sellListing) 10 1 false).listing.bind
      (fun l => (findBid 1 (bidArrayOf l)).map Bid.status))
      = some BidStatus.accepted := by
  decide

/-- C5 amended: for each negotiation operation, a failing Notification
creation never rolls back the already-saved Bid/Listing state (the persisted
listing is identical whether or not the notification write succeeds), but it
IS propagated to the caller: with the notification store failing, none of the
four handlers ever responds success. -/
theorem notification_failure_no_rollback_but_propagates (l : Listing)
    (actorId bidId price quantity now newBidId : Nat) (nm msg : String)
    (q : Option Nat) (m : Option String) :
    ((placeBid (some l) actorId nm price quantity msg newBidId false).listing
       = (placeBid (some l) actorId nm price quantity msg newBidId true).listing) ∧
    ((acceptBid (some l) actorId bidId false).listing
       = (acceptBid (some l) actorId bidId true).listing) ∧
    ((rejectBid (some l) actorId bidId false).listing
       = (rejectBid (some l) actorId bidId true).listing) ∧
    ((counterBid (some l) actorId bidId price q m now false).listing
       = (counterBid (some l) actorId bidId price q m now true).listing) ∧
    ((placeBid (some l) actorId nm price quantity msg newBidId false).success
       = false) ∧
    ((acceptBid (some l) actorId bidId false).success = false) ∧
    ((rejectBid (some l) actorId bidId false).success = false) ∧
    ((counterBid (some l) actorId bidId price q m now false).success = false) := by
  refine ⟨?_, ?_, ?_, ?_, ?_, ?_, ?_, ?_⟩
  · by_cases h1 : l.userId = actorId
    · simp [placeBid, h1]
    · by_cases h2 : l.status = LStatus.active
      · simp [placeBid, h1, h2, afterSave_listing]
      · simp [placeBid, h1, h2]
  · by_cases h1 : l.userId = actorId
    · rcases hf : findBid bidId (bidArrayOf l) with _ | bid
      · simp [acceptBid, h1, hf]
      · simp [acceptBid, h1, hf, afterSave_listing]
    · simp [acceptBid, h1]
  · by_cases h1 : l.userId = actorId
    · rcases hf : findBid bidId (bidArrayOf l) with _ | bid
      · simp [rejectBid, h1, hf]
      · simp [rejectBid, h1, hf, afterSave_listing]
    · simp [rejectBid, h1]
  · by_cases h1 : l.userId = actorId
    · rcases hf : findBid bidId (bidArrayOf l) with _ | bid
      · simp [counterBid, h1, hf]
      · simp [counterBid, h1, hf, afterSave_listing]
    · simp [counterBid, h1]
  · by_cases h1 : l.userId = actorId
    · simp [placeBid, h1]
    · by_cases h2 : l.status = LStatus.active
      · simp [placeBid, h1, h2, notifCreate, afterSave]
      · simp [placeBid, h1, h2]
  · by_cases h1 : l.userId = actorId
    · rcases hf : findBid bidId (bidArrayOf l) with _ | bid
      · simp [acceptBid, h1, hf]
      · simp [acceptBid, h1, hf, notifCreate, afterSave]
    · simp [acceptBid, h1]
  · by_cases h1 : l.userId = actorId
    · rcases hf : findBid bidId (bidArrayOf l) with _ | bid
      · simp [rejectBid, h1, hf]
      · simp [rejectBid, h1, hf, notifCreate, afterSave]
    · simp [rejectBid, h1]
  · by_cases h1 : l.userId = actorId
    · rcases hf : findBid bidId (bidArrayOf l) with _ | bid
      · simp [counterBid, h1, hf]
      · simp [counterBid, h1, hf, notifCreate, afterSave]
    · simp [counterBid, h1]

/-- C8: PlaceBid responds 400 InvalidOperation, leaving the listing
untouched, when the bidder is the owner or the listing status is not active;
otherwise it appends exactly one new Bid with status pending and empty
counterHistory to `bids` for a sell listing, to `offers` for a buy listing,
keeping every existing bid unchanged. -/
theorem placeBid_preconditions_and_append (l : Listing) (bidderId : Nat)
    (nm : String) (price quantity : Nat) (msg : String) (newBidId : Nat)
    (ok : Bool) :
    ((l.userId = bidderId ∨ ¬ l.status = LStatus.active) →
      (placeBid (some l) bidderId nm price quantity msg newBidId ok).httpStatus
          = 400 ∧
      (placeBid (some l) bidderId nm price quantity msg newBidId ok).success
          = false ∧
      (placeBid (some l) bidderId nm price quantity msg newBidId ok).listing
          = some l) ∧
    (¬ l.userId = bidderId → l.status = LStatus.active →
      (placeBid (some l) bidderId nm price quantity msg newBidId ok).listing
        = some (match l.type with
          | .sell => { l with bids := l.bids ++
              [⟨newBidId, bidderId, nm, price, quantity, msg, .pending, []⟩] }
          | .buy => { l with offers := l.offers ++
              [⟨newBidId, bidderId, nm, price, quantity, msg, .pending, []⟩] })) := by
  constructor
  · intro hpre
    by_cases h1 : l.userId = bidderId
    · simp [placeBid, h1]
    · have h2 : ¬ l.status = LStatus.active := hpre.resolve_left h1
      simp [placeBid, h1, h2]
  · intro h1 h2
    have hx : ¬ l.userId = bidderId := h1
    simp only [placeBid, if_neg hx]
    rw [if_neg (by simp [h2]), afterSave_listing, placeCore]

/-- Witness for C8: the inactive sold listing rejects a bid, and a fresh
active listing takes the appended pending bid. -/
theorem placeBid_preconditions_and_append_witness :
    ((placeBid (some soldListing) 2 "bidder" 90 50 "" 9 true).httpStatus = 400 ∧
     (placeBid (some soldListing) 2 "bidder" 90 50 "" 9 true).success = false ∧
     (placeBid (some soldListing) 2 "bidder" 90 50 "" 9 true).listing
       = some soldListing) ∧
    (placeBid (some createdListing) 2 "bidder" 90 50 "" 9 true).listing
      = some placedListing :=
  ⟨(placeBid_preconditions_and_append soldListing 2 "bidder" 90 50 "" 9
      true).1 (Or.inr (by decide)),
   (placeBid_preconditions_and_append createdListing 2 "bidder" 90 50 "" 9
      true).2 (by decide) (by decide)⟩

/-- C4: the accept handler always writes notification type "bid_accepted",
also when the listing type is buy, where the spec expects "offer_accepted";
and the counter handler writes "bid_countered", a type the Notification
schema enum does not contain (it has "counter_offer" instead), so the
counter notification is never created and the counter request errors after
saving — no `counter_offer` notification with the round number is ever
emitted. -/
theorem notification_types_diverge_from_schema :
    ¬ "bid_countered" ∈ notificationTypeEnum ∧
    "counter_offer" ∈ notificationTypeEnum ∧
    (counterBid (some sellListing) 10 1 95 none none 7 true).notifs = [] ∧
    (counterBid (some sellListing) 10 1 95 none none 7 true).httpStatus = 500 ∧
    ((acceptBid (some buyListing) 10 1 true).notifs.map Notification.type)
      = ["bid_accepted"] := by
  decide

/-- C1: the register handler checks only the live users collection, never
UsernameHistory — with "alice" retired in history and no live owner, POST
/api/auth/register with username "alice" creates the account: the retired
name becomes a live active username again, and the late history-insert
failure surfaces as a 500 store error rather than the handler's own Conflict
response.  Only the profile-change path enforces the history check (400). -/
theorem register_ignores_username_history :
    retiredAliceState.history.any (fun h => h.username = "alice") = true ∧
    retiredAliceState.users.any (fun u => u.username = "alice") = false ∧
    ((register retiredAliceState "alice" "c@x.com" 2).state.users.map
      User.username) = ["bob", "alice"] ∧
    (register retiredAliceState "alice" "c@x.com" 2).httpStatus = 500 ∧
    (changeUsername retiredAliceState 1 "alice").httpStatus = 400 := by
  decide

end NListPlanet
